import Mathlib

/-!
# Verification of razee-io/Request-util (`src/request.js`)

A shallow embedding of the option-translation, response-normalization and
retry logic of `src/request.js` into Lean, together with theorems settling
the specification claims about it.

JavaScript objects are modelled as ordered association lists
(`Obj := List (String × JVal)`), mirroring `Object.getOwnPropertyNames`
insertion order.  In-place mutation of a caller-supplied object is modelled
by returning the object's final state alongside the function result.
External capabilities (the axios transport, the Node `URL` parser and the
`aws4` signer) are treated as collaborators per the spec: the transport is a
parameter, and the signer's output header values are concrete stand-ins
(no claim inspects signature contents).
-/

namespace RequestUtil

/-- A JavaScript value, as far as `src/request.js` distinguishes values:
`undefined`, `null`, booleans, numbers, strings, plain objects (ordered
field lists), HTTP(S) agent objects (opaque, not deep-cloneable; the field
list records the construction options of `new Https.Agent(opts)`), and
binary buffers produced by `Buffer.from(data, 'binary')`. -/
inductive JVal where
  | vUndefined : JVal
  | vNull : JVal
  | vBool : Bool → JVal
  | vNum : Int → JVal
  | vStr : String → JVal
  | vObj : List (String × JVal) → JVal
  | vAgent : List (String × JVal) → JVal
  | vBuf : JVal → JVal

/-- A JavaScript object: ordered own-property list (string keys). -/
abbrev Obj := List (String × JVal)

/-- `Object.getOwnPropertyNames o` (insertion order). -/
def keys (o : Obj) : List String := o.map Prod.fst

/-- Property read `o[k]`, `none` when the property is absent. -/
def getK : Obj → String → Option JVal
  | [], _ => none
  | (k, v) :: rest, j => if j = k then some v else getK rest j

/-- Property read `o[k]`, yielding `undefined` when absent (JS semantics). -/
def getD (o : Obj) (k : String) : JVal := (getK o k).getD .vUndefined

/-- Property write `o[k] = v`: updates the (first) binding in place when
present — property order is preserved — otherwise appends it at the end
(JS insertion order). -/
def setK : Obj → String → JVal → Obj
  | [], k, v => [(k, v)]
  | (k0, v0) :: rest, k, v =>
    if k0 = k then (k, v) :: rest else (k0, v0) :: setK rest k v

/-- Property deletion `delete o[k]`. -/
def eraseK : Obj → String → Obj
  | [], _ => []
  | (k0, v0) :: rest, k =>
    if k0 = k then eraseK rest k else (k0, v0) :: eraseK rest k

/-- JavaScript truthiness, as used by every `if (x)` in the source.
(The model has no NaN; `vNum` covers the integers used by the source.) -/
def truthy : JVal → Bool
  | .vUndefined => false
  | .vNull => false
  | .vBool b => b
  | .vNum n => n != 0
  | .vStr s => s != ""
  | .vObj _ => true
  | .vAgent _ => true
  | .vBuf _ => true

/-- Sub-property read `v[k]` on an arbitrary value: objects yield the field,
anything else yields `undefined` (the source only ever does this on values
it expects to be plain objects, e.g. `aws.key`, `headers['content-type']`). -/
def propGet : JVal → String → JVal
  | .vObj l, k => getD l k
  | _, _ => .vUndefined

/-- Own enumerable entries of a value: a plain object's fields; primitives
and opaque agents contribute none (the source only enumerates values it
expects to be plain objects). -/
def objEntries : JVal → Obj
  | .vObj l => l
  | _ => []

/-- `deepmerge(target, source)` as used by the source, where every value of
`target` is a non-mergeable scalar (the three call sites merge onto
`{method,simple}` / `{resolveWithFullResponse,simple}` defaults or set a
scalar `content-type`): the destination gets the target's properties in
order, overridden by the source where the source has the key, followed by
the source-only properties in source order.  Values are deep-cloned by
`deepmerge`, which in this pure model is the identity. -/
def jsMergeScalarTarget (t s : Obj) : Obj :=
  t.map (fun p => (p.1, (getK s p.1).getD p.2)) ++
    s.filter (fun p => p.1 ∉ keys t)

/-! ## The option translator (`requestOpts_to_axiosOpts`, src/request.js 53-261) -/

/-- `String.prototype.toUpperCase` for the ASCII method strings in play
(kernel-reducible counterpart of `String.toUpper`). -/
def jsUpper (s : String) : String := String.mk (s.data.map Char.toUpper)

/-- `String.prototype.toLowerCase` for the ASCII header names in play
(kernel-reducible counterpart of `String.toLower`). -/
def jsLower (s : String) : String := String.mk (s.data.map Char.toLower)

/-- `s.startsWith(pre)` (kernel-reducible counterpart of
`String.startsWith`). -/
def jsBeginsWith (s pre : String) : Bool := pre.data.isPrefixOf s.data

/-- The allow-list of `request`-style option keys (src/request.js 53-73). -/
def allowedRequestOptions : List String :=
  ["method", "baseUrl", "uri", "url", "headers", "qs", "body", "form",
   "json", "simple", "resolveWithFullResponse", "timeout", "agent", "ca",
   "cert", "key", "encoding", "aws", "status"]

/-- Header normalization (src/request.js 110-120): iterate over a snapshot of
the header names; a header whose *current* value is `undefined` or `null` is
deleted; a name that is not already lowercase is moved to its lowercase form
(overwriting any existing binding) and the original binding is deleted. -/
def normalizeHeaders (h : Obj) : Obj :=
  (keys h).foldl
    (fun acc n =>
      match getK acc n with
      | none => acc
      | some v =>
        match v with
        | .vUndefined => eraseK acc n
        | .vNull => eraseK acc n
        | _ =>
          if n = jsLower n then acc
          else eraseK (setK acc (jsLower n) v) n)
    h

/-- `uri -> url` (src/request.js 98-101). -/
def stepUri (A : Obj) : Obj :=
  if truthy (getD A "uri") then eraseK (setK A "url" (getD A "uri")) "uri"
  else A

/-- `baseUrl -> baseURL` (src/request.js 104-107). -/
def stepBaseUrl (A : Obj) : Obj :=
  if truthy (getD A "baseUrl") then
    eraseK (setK A "baseURL" (getD A "baseUrl")) "baseUrl"
  else A

/-- Header cleanup (src/request.js 110-120).  The loop only has an effect
when `headers` is a plain object; a primitive truthy value has no deletable
own properties (property writes on primitives are silent no-ops in sloppy
mode) and a falsy value skips the block. -/
def stepHeaders (A : Obj) : Obj :=
  match getD A "headers" with
  | .vObj l => setK A "headers" (.vObj (normalizeHeaders l))
  | _ => A

/-- `qs -> params` (src/request.js 123-126). -/
def stepQs (A : Obj) : Obj :=
  if truthy (getD A "qs") then eraseK (setK A "params" (getD A "qs")) "qs"
  else A

/-- The guard `!axiosOptions.headers || !axiosOptions.headers['content-type']`
(src/request.js 134, 150, 159). -/
def ctMissing (A : Obj) : Bool :=
  !truthy (getD A "headers") || !truthy (propGet (getD A "headers") "content-type")

/-- `merge(axiosOptions.headers, {'content-type': ct})` (src/request.js 138,
141, 151, 160): when the current `headers` value is a plain object the
content-type entry is set on a copy of it; any other value (including
`undefined`, the `|| {}` case at line 151) yields a fresh object holding
only the content-type. -/
def mergeContentType (h : JVal) (ct : String) : Obj :=
  match h with
  | .vObj l => setK l "content-type" (.vStr ct)
  | _ => [("content-type", .vStr ct)]

/-- Payload selection and response-type handling (src/request.js 128-172).
Reading `.toUpperCase` off a non-string `method` raises a `TypeError` in JS;
the model surfaces it as an error value. -/
def stepPayload (A : Obj) : Except String Obj :=
  match getD A "method" with
  | .vStr m =>
    if jsUpper m = "POST" ∨ jsUpper m = "PUT" ∨ jsUpper m = "PATCH" then
      if truthy (getD A "body") then
        -- body -> data (src/request.js 130-144)
        let A1 := eraseK (setK A "data" (getD A "body")) "body"
        .ok (if ctMissing A1 then
            (if truthy (getD A1 "json") then
              setK A1 "headers"
                (.vObj (mergeContentType (getD A1 "headers") "application/json"))
            else
              setK A1 "headers"
                (.vObj (mergeContentType (getD A1 "headers") "text/plain")))
          else A1)
      else if truthy (getD A "form") then
        -- form -> data (src/request.js 146-153)
        let A1 := eraseK (setK A "data" (getD A "form")) "form"
        .ok (if ctMissing A1 then
            setK A1 "headers"
              (.vObj (mergeContentType (getD A1 "headers")
                "application/x-www-form-urlencoded"))
          else A1)
      else if truthy (getD A "json") then
        -- json -> data (src/request.js 155-162)
        let A1 := eraseK (setK A "data" (getD A "json")) "json"
        .ok (if ctMissing A1 then
            setK A1 "headers"
              (.vObj (mergeContentType (getD A1 "headers") "application/json"))
          else A1)
      else .ok A
    else
      -- non-payload method (src/request.js 166-172)
      let A1 := if !truthy (getD A "json") then
          setK A "responseType" (.vStr "text")
        else A
      .ok (eraseK A1 "json")
  | _ => .error "TypeError: axiosOptions.method.toUpperCase is not a function"

/-- `simple`, `resolveWithFullResponse` and `encoding` handling
(src/request.js 174-190): `simple` falsy sets `validateStatus = null`;
`encoding === null` (strict equality) selects the binary response type;
all three translation-only keys are deleted. -/
def stepFlags (A : Obj) : Obj :=
  let A1 := if !truthy (getD A "simple") then setK A "validateStatus" .vNull
    else A
  let A2 := eraseK A1 "simple"
  let A3 := eraseK A2 "resolveWithFullResponse"
  let A4 := match getK A3 "encoding" with
    | some .vNull => setK A3 "responseType" (.vStr "arraybuffer")
    | _ => A3
  eraseK A4 "encoding"

/-- `delete agent/ca/cert/key` (src/request.js 213-216). -/
def cleanupAgentKeys (A : Obj) : Obj :=
  eraseK (eraseK (eraseK (eraseK A "agent") "ca") "cert") "key"

/-- HTTP/HTTPS agent materialization (src/request.js 192-216): a truthy
pre-built `agent` is attached as `httpsAgent` or `httpAgent` depending on
whether the url starts with `https` (`url.startsWith` on a non-string url
raises a `TypeError`); otherwise truthy `ca`/`key`/`cert` build a fresh
`Https.Agent` from the options collected in source order (ca, cert, key). -/
def stepAgent (A : Obj) : Except String Obj :=
  if truthy (getD A "agent") then
    match getD A "url" with
    | .vStr u =>
      .ok (cleanupAgentKeys
        (setK A (if jsBeginsWith u "https" then "httpsAgent" else "httpAgent")
          (getD A "agent")))
    | _ => .error "TypeError: axiosOptions.url.startsWith is not a function"
  else if truthy (getD A "ca") ∨ truthy (getD A "key") ∨ truthy (getD A "cert")
  then
    let agentOptions :=
      (if truthy (getD A "ca") then [("ca", getD A "ca")] else []) ++
      (if truthy (getD A "cert") then [("cert", getD A "cert")] else []) ++
      (if truthy (getD A "key") then [("key", getD A "key")] else [])
    .ok (cleanupAgentKeys (setK A "httpsAgent" (.vAgent agentOptions)))
  else .ok (cleanupAgentKeys A)

/-- The whitespace characters trimmed by JS `ToNumber` on strings: space,
tab, LF, VT, FF, CR, NBSP, line separator, paragraph separator, BOM. -/
def isJsSpace (c : Char) : Bool :=
  c.toNat = 32 ∨ c.toNat = 9 ∨ c.toNat = 10 ∨ c.toNat = 11 ∨ c.toNat = 12 ∨
    c.toNat = 13 ∨ c.toNat = 160 ∨ c.toNat = 8232 ∨ c.toNat = 8233 ∨
    c.toNat = 65279

/-- Trim JS whitespace from both ends. -/
def trimJs (cs : List Char) : List Char :=
  ((cs.dropWhile isJsSpace).reverse.dropWhile isJsSpace).reverse

/-- Hexadecimal digit test. -/
def isHexDigit (c : Char) : Bool :=
  c.isDigit || ('a' ≤ c && c ≤ 'f') || ('A' ≤ c && c ≤ 'F')

/-- Value of one digit in radix up to 16. -/
def hexDigitVal (c : Char) : Nat :=
  if c.isDigit then c.toNat - 48
  else if 'a' ≤ c ∧ c ≤ 'f' then c.toNat - 87
  else c.toNat - 55

/-- Value of a digit string in the given radix. -/
def radixVal (r : Nat) (ds : List Char) : Nat :=
  ds.foldl (fun a c => a * r + hexDigitVal c) 0

/-- Value of a decimal digit string. -/
def decDigitsVal (ds : List Char) : Nat := radixVal 10 ds

/-- A finite JS number `(-1)^neg * mant * 10^exp10` — the result of
`ToNumber` when it is neither NaN nor an infinity. -/
structure JsNum where
  neg : Bool
  mant : Nat
  exp10 : Int

/-- Whether a finite JS number equals the number 4. -/
def jsNumEq4 (r : JsNum) : Bool :=
  !r.neg &&
    (match r.exp10 with
     | .ofNat k => r.mant * 10 ^ k == 4
     | .negSucc k => r.mant == 4 * 10 ^ (k + 1))

/-- The exponent part of a JS decimal literal: empty means exponent 0;
otherwise `e`/`E`, an optional sign and at least one digit, consuming the
whole rest of the string (anything else makes the literal NaN). -/
def parseExpPart : List Char → Option Int
  | [] => some 0
  | c :: rest =>
    if c = 'e' ∨ c = 'E' then
      match rest with
      | '+' :: ds =>
        if ¬ds.isEmpty ∧ ds.all Char.isDigit then some (decDigitsVal ds)
        else none
      | '-' :: ds =>
        if ¬ds.isEmpty ∧ ds.all Char.isDigit then
          some (-(decDigitsVal ds : Int))
        else none
      | ds =>
        if ¬ds.isEmpty ∧ ds.all Char.isDigit then some (decDigitsVal ds)
        else none
    else none

/-- An unsigned JS decimal literal — `digits [. digits] [exponent]` or
`. digits [exponent]` — as mantissa and power-of-ten exponent. -/
def parseDecMag (cs : List Char) : Option (Nat × Int) :=
  let intDs := cs.takeWhile Char.isDigit
  let rest1 := cs.drop intDs.length
  match rest1 with
  | '.' :: rest2 =>
    let fracDs := rest2.takeWhile Char.isDigit
    let rest3 := rest2.drop fracDs.length
    if intDs.isEmpty ∧ fracDs.isEmpty then none
    else
      match parseExpPart rest3 with
      | some e => some (decDigitsVal (intDs ++ fracDs), e - fracDs.length)
      | none => none
  | _ =>
    if intDs.isEmpty then none
    else
      match parseExpPart rest1 with
      | some e => some (decDigitsVal intDs, e)
      | none => none

/-- An optionally signed decimal literal or `Infinity` (`none`: an infinity
or NaN, never loosely equal to 4). -/
def parseSignedDec (neg : Bool) (cs : List Char) : Option JsNum :=
  if cs = "Infinity".data then none
  else (parseDecMag cs).map (fun p => ⟨neg, p.1, p.2⟩)

/-- JS `ToNumber` on a string (the StringNumericLiteral grammar): trim JS
whitespace; empty is 0; an unsigned `0x`/`0b`/`0o` radix literal; otherwise
an optional sign with a decimal literal or `Infinity`; anything else is
NaN.  `none` stands for NaN or an infinity. -/
def jsStringToNumber (s : String) : Option JsNum :=
  match trimJs s.data with
  | [] => some ⟨false, 0, 0⟩
  | '0' :: x :: ds =>
    if x = 'x' ∨ x = 'X' then
      if ¬ds.isEmpty ∧ ds.all isHexDigit then some ⟨false, radixVal 16 ds, 0⟩
      else none
    else if x = 'b' ∨ x = 'B' then
      if ¬ds.isEmpty ∧ ds.all (fun c => c = '0' ∨ c = '1') then
        some ⟨false, radixVal 2 ds, 0⟩
      else none
    else if x = 'o' ∨ x = 'O' then
      if ¬ds.isEmpty ∧ ds.all (fun c => '0' ≤ c ∧ c ≤ '7') then
        some ⟨false, radixVal 8 ds, 0⟩
      else none
    else parseSignedDec false ('0' :: x :: ds)
  | '+' :: rest => parseSignedDec false rest
  | '-' :: rest => parseSignedDec true rest
  | cs => parseSignedDec false cs

/-- JS template-literal string conversion, for error messages.  A Buffer is
stringified via `Buffer.prototype.toString()` (utf8 decode of its bytes):
the model's buffers are built from the wrapped value
(`Buffer.from(data, 'binary')`, src/request.js 277), and for the textual
payloads in play the decode yields that value's string form. -/
def jsToString : JVal → String
  | .vUndefined => "undefined"
  | .vNull => "null"
  | .vBool b => if b then "true" else "false"
  | .vNum n => toString n
  | .vStr s => s
  | .vObj _ => "[object Object]"
  | .vAgent _ => "[object Object]"
  | .vBuf d => jsToString d

/-- Whether a string is loosely equal to the number 4: its `ToNumber` value
is finite and equals 4. -/
def strLooseEq4 (s : String) : Bool :=
  match jsStringToNumber s with
  | some r => jsNumEq4 r
  | none => false

/-- JS loose equality with the number 4, as in `sign_version != 4`
(src/request.js 222), following the abstract equality algorithm case by
case: a number compares directly; a string is converted with `ToNumber` —
so noncanonical numeric strings such as "4.0", "04", " 4", "0x4" or
"400e-2" ARE loosely equal to 4; a boolean converts to 0 or 1, never 4;
`null` and `undefined` are never loosely equal to a number; a plain
object's (and an agent's) ToPrimitive is "[object Object]", which is NaN;
a Buffer's ToPrimitive is its `toString()`, compared like a string. -/
def looseEq4 : JVal → Bool
  | .vNum n => n == 4
  | .vStr s => strLooseEq4 s
  | .vBuf d => strLooseEq4 (jsToString d)
  | _ => false

/-- AWS4 signing (src/request.js 218-255).  The whole block is guarded by
`axiosOptions.aws && axiosOptions.aws.key && axiosOptions.aws.secret`; the
`sign_version` check precedes the sub-key check.  The Node `URL` parser and
the `aws4` signer are external capabilities; the signer is given only the
access key and secret (no session token), so it returns `Authorization` and
`X-Amz-Date` headers and no `X-Amz-Security-Token`; their concrete values
are opaque stand-ins, which no claim inspects.  `aws` itself is NOT deleted
by the source. -/
def invalidAwsSubkeys (awsV : JVal) : List String :=
  (keys (objEntries awsV)).filter
    (fun n => n ∉ (["key", "secret", "sign_version"] : List String))

def stepAws (A : Obj) : Except String Obj :=
  if truthy (getD A "aws") ∧ truthy (propGet (getD A "aws") "key") ∧
      truthy (propGet (getD A "aws") "secret") then
    if truthy (propGet (getD A "aws") "sign_version") ∧
        ¬looseEq4 (propGet (getD A "aws") "sign_version") then
      .error ("Invalid aws version: " ++
        jsToString (propGet (getD A "aws") "sign_version"))
    else if ¬(invalidAwsSubkeys (getD A "aws")).isEmpty then
      .error ("Invalid aws options: " ++
        String.intercalate "," (invalidAwsSubkeys (getD A "aws")))
    else
      .ok (setK A "headers" (.vObj
        (setK
          (setK (objEntries (getD A "headers")) "authorization"
            (.vStr ("AWS4-HMAC-SHA256 Credential=" ++
              jsToString (propGet (getD A "aws") "key"))))
          "x-amz-date" (.vStr "aws4-signed-date"))))
  else .ok A

/-- The `request`-option defaults merged under the caller's options
(src/request.js 89-92). -/
def requestDefaults : Obj := [("method", .vStr "get"), ("simple", .vBool true)]

/-- Restore the original agent onto the clone when truthy (src/request.js
95: `if( origAgent ) axiosOptions.agent = origAgent`). -/
def stepAgentRestore (origAgent : JVal) (A : Obj) : Obj :=
  if truthy origAgent then setK A "agent" origAgent else A

/-- The clone-and-rename part of the pipeline (src/request.js 86-126):
deep-merge the caller's options over `{method:'get', simple:true}`,
restore the agent, then `uri -> url`, `baseUrl -> baseURL`, header
normalization and `qs -> params`. -/
def preAxios (origAgent : JVal) (B1 : Obj) : Obj :=
  stepQs (stepHeaders (stepBaseUrl (stepUri
    (stepAgentRestore origAgent (jsMergeScalarTarget requestDefaults B1)))))

/-- The translation pipeline after the allow-list check (src/request.js
86-260), operating on the clone `axiosOptions`. -/
def translateSteps (origAgent : JVal) (B1 : Obj) : Except String Obj :=
  match stepPayload (preAxios origAgent B1) with
  | .error e => .error e
  | .ok A3 =>
    match stepAgent (stepFlags A3) with
    | .error e => .error e
    | .ok A4 =>
      match stepAws A4 with
      | .error e => .error e
      | .ok A5 => .ok (eraseK A5 "status")

/-- The invalid-key computation (src/request.js 80): the own properties of
the (agent-stripped) option bag outside the allow-list, in property order. -/
def invalidKeysOf (B1 : Obj) : List String :=
  (keys B1).filter (fun n => n ∉ allowedRequestOptions)

/-- `requestOpts_to_axiosOpts` (src/request.js 75-261).  The first component
is the caller-supplied object's state after the call: the source deletes its
`agent` property in place (line 78, before the allow-list check) and never
restores it onto the original; every other transformation operates on the
deep-merged clone.  The second component is the thrown error or the returned
axios option object. -/
def requestOpts_to_axiosOpts (B : Obj) : Obj × Except String Obj :=
  let origAgent := getD B "agent"
  let B1 := eraseK B "agent"
  let invalid := invalidKeysOf B1
  (B1,
    if ¬invalid.isEmpty then
      .error ("Invalid request options: " ++ String.intercalate "," invalid)
    else translateSteps origAgent B1)

/-- Option preparation of `doRequestRetry` (src/request.js 407-421).  First
component: the caller-supplied object's state after the call (its `agent` is
deleted in place and not restored); second component: the `requestOptions`
clone handed to `requestOpts_to_axiosOpts` — the defaults
`{resolveWithFullResponse: true, simple: false}` are merged UNDER the
caller's options (deepmerge lets the source override the target), the
retry-only keys are deleted from the clone, and a truthy original agent is
re-attached to the clone. -/
def doRequestRetryPrep (B : Obj) : Obj × Obj :=
  let origAgent := getD B "agent"
  let B1 := eraseK B "agent"
  let R0 := jsMergeScalarTarget
    [("resolveWithFullResponse", .vBool true), ("simple", .vBool false)] B1
  let R1 := eraseK (eraseK (eraseK R0 "retryDelay") "maxAttempts") "retryStrategy"
  (B1, if truthy origAgent then setK R1 "agent" origAgent else R1)

/-- Whether a translation result is a success (no exception thrown). -/
def exceptOk : Except String Obj → Bool
  | .ok _ => true
  | .error _ => false

/-- Property read on a successful translation result (`none` on error). -/
def okGet : Except String Obj → String → Option JVal
  | .ok o, k => getK o k
  | .error _, _ => none

/-- The keys of a successful translation result (`[]` on error). -/
def okKeys : Except String Obj → List String
  | .ok o => keys o
  | .error _ => []

/-! ## Response normalization (`axiosResponse_to_requestResponse`,
src/request.js 263-294) -/

/-- The response property allow-list (src/request.js 285). -/
def allowedResponseProperties : List String :=
  ["url", "method", "statusCode", "statusMessage", "body"]

/-- Redaction of one response property (src/request.js 286-290): properties
outside the allow-list have their value replaced by the sentinel. -/
def redactProp (p : String × JVal) : String × JVal :=
  if p.1 ∈ allowedResponseProperties then p else (p.1, .vStr "[REDACTED]")

/-- `axiosResponse_to_requestResponse` (src/request.js 263-294): renames
`status -> statusCode`, `statusText -> statusMessage`, `data -> body` (the
body is wrapped as a binary buffer when the original options used
`encoding === null`), redacts every property outside the allow-list, and
returns the full response object or just its body depending on
`resolveWithFullResponse`.  First component: the legacy response object
(the source mutates the axios response in place); second component: the
value returned to the caller. -/
def axiosResponse_to_requestResponse (requestOptions : Obj) (resp : Obj) :
    Obj × JVal :=
  let r1 := eraseK (setK resp "statusCode" (getD resp "status")) "status"
  let r2 := eraseK (setK r1 "statusMessage" (getD r1 "statusText")) "statusText"
  let r3 := match getK requestOptions "encoding" with
    | some .vNull => setK r2 "body" (.vBuf (getD r2 "data"))
    | _ => setK r2 "body" (getD r2 "data")
  let r4 := eraseK r3 "data"
  let r5 := r4.map redactProp
  (r5, if truthy (getD requestOptions "resolveWithFullResponse") then .vObj r5
    else getD r5 "body")

/-! ## The streaming entry point (`getStream`, src/request.js 335-374) -/

/-- Outcome of the transport promise `axios(axiosOptions)`: it either
resolves with a response object or rejects with an error value. -/
inductive TransportOutcome where
  | resolved : Obj → TransportOutcome
  | rejected : JVal → TransportOutcome

/-- An event observable on the `Stream.PassThrough` object that `getStream`
returns. -/
inductive StreamEvent where
  | responseEv : JVal → StreamEvent
  | dataEv : JVal → StreamEvent
  | errorEv : JVal → StreamEvent

/-- The events delivered on the stream returned by `getStream`, given the
outcome of the transport call and (on success) the chunks and terminal error
of the response body stream (src/request.js 356-370).  The source attaches
ONLY a fulfillment handler — `axios(axiosOptions).then(onFulfilled)` with no
rejection handler and no catch — so a rejected transport promise triggers no
handler: nothing is emitted on the stream and the rejection is left
unhandled (second component `true`).  On fulfillment the handler emits a
`response` event carrying the normalized response and pipes the body stream
into the returned stream via `Stream.pipeline`, which forwards the body's
chunks and its terminal error, if any, to the destination. -/
def getStreamEvents (requestOptions : Obj) (outcome : TransportOutcome)
    (bodyChunks : List JVal) (bodyErr : Option JVal) :
    List StreamEvent × Bool :=
  match outcome with
  | .resolved resp =>
    let rr := axiosResponse_to_requestResponse requestOptions resp
    (StreamEvent.responseEv rr.2 ::
      (bodyChunks.map StreamEvent.dataEv ++
        (match bodyErr with
         | some e => [StreamEvent.errorEv e]
         | none => [])),
      false)
  | .rejected _ => ([], true)

/-! ## The retry loop (`doRequestRetry`, src/request.js 426-439) -/

/-- JS `x || d` for an optionally-present numeric option: `undefined` and
`0` are falsy, so both select the default (src/request.js 427, 437). -/
def jsOr : Option Nat → Nat → Nat
  | none, d => d
  | some 0, d => d
  | some (n + 1), _ => n + 1

/-- The `while (triesRemaining-- > 0)` loop of `doRequestRetry`
(src/request.js 428-439), for runs in which every transport invocation
returns a response.  `transport i` is the status of the `i`-th response
(0-based).  Returns (status of the last response received, number of
transport calls made, list of the delays awaited in order).  A status in
[200,500) breaks out of the loop; otherwise, if tries remain, the loop
awaits `delayMs` and retries; no delay follows the final attempt. -/
def retryLoop (transport : Nat → Nat) (delayMs : Nat) :
    Nat → Nat → Nat × Nat × List Nat
  | _, 0 => (0, 0, [])
  | idx, remaining + 1 =>
    let status := transport idx
    if 200 ≤ status ∧ status < 500 then (status, 1, [])
    else if 0 < remaining then
      let r := retryLoop transport delayMs (idx + 1) remaining
      (r.1, r.2.1 + 1, delayMs :: r.2.2)
    else (status, 1, [])

/-- The retry loop as entered by `doRequestRetry`:
`triesRemaining = requestRetryOptions.maxAttempts || 5` and a delay of
`requestRetryOptions.retryDelay || 5000` milliseconds (src/request.js
427, 437). -/
def doRequestRetryLoop (transport : Nat → Nat)
    (maxAttempts retryDelay : Option Nat) : Nat × Nat × List Nat :=
  retryLoop transport (jsOr retryDelay 5000) 0 (jsOr maxAttempts 5)

/-- The attempt bound the claim states: `maxAttempts`, defaulting to 5 when
the option is absent. -/
def statedMaxAttempts : Option Nat → Nat
  | none => 5
  | some n => n

/-! ## Basic lemmas about the object operations -/

theorem getK_append (a b : Obj) (k : String) :
    getK (a ++ b) k = ((getK a k).rec (getK b k) (fun v => some v)) := by
  induction a with
  | nil => simp [getK]
  | cons p rest ih =>
    obtain ⟨k0, v0⟩ := p
    by_cases h : k = k0 <;> simp [getK, h, ih]

theorem getK_eq_none_iff (o : Obj) (k : String) :
    getK o k = none ↔ k ∉ keys o := by
  induction o with
  | nil => simp [getK, keys]
  | cons p rest ih =>
    obtain ⟨k0, v0⟩ := p
    by_cases h : k = k0 <;> simp [getK, keys, h, ih]

theorem getK_isSome_of_mem (o : Obj) (k : String) (h : k ∈ keys o) :
    ∃ v, getK o k = some v := by
  cases hk : getK o k with
  | none => exact absurd ((getK_eq_none_iff o k).mp hk) (by simp [h])
  | some v => exact ⟨v, rfl⟩

theorem getK_setK_self (o : Obj) (k : String) (v : JVal) :
    getK (setK o k v) k = some v := by
  induction o with
  | nil => simp [setK, getK]
  | cons p rest ih =>
    obtain ⟨k0, v0⟩ := p
    by_cases hk : k0 = k
    · simp [setK, getK, hk]
    · simp [setK, getK, hk, Ne.symm hk, ih]

theorem getK_setK_ne (o : Obj) (k j : String) (v : JVal) (h : j ≠ k) :
    getK (setK o k v) j = getK o j := by
  induction o with
  | nil => simp [setK, getK, h]
  | cons p rest ih =>
    obtain ⟨k0, v0⟩ := p
    by_cases hk : k0 = k
    · subst hk
      simp [setK, getK, h]
    · by_cases hj : j = k0 <;> simp [setK, getK, hk, hj, ih]

theorem getK_eraseK_self (o : Obj) (k : String) :
    getK (eraseK o k) k = none := by
  induction o with
  | nil => simp [eraseK, getK]
  | cons p rest ih =>
    obtain ⟨k0, v0⟩ := p
    by_cases hk : k0 = k
    · simp [eraseK, hk, ih]
    · simp [eraseK, getK, hk, Ne.symm hk, ih]

theorem getK_eraseK_ne (o : Obj) (k j : String) (h : j ≠ k) :
    getK (eraseK o k) j = getK o j := by
  induction o with
  | nil => simp [eraseK]
  | cons p rest ih =>
    obtain ⟨k0, v0⟩ := p
    by_cases hk : k0 = k
    · subst hk
      simp [eraseK, getK, h, ih]
    · by_cases hj : j = k0 <;> simp [eraseK, getK, hj, hk, ih]

theorem mem_keys_eraseK (o : Obj) (k j : String) :
    j ∈ keys (eraseK o k) ↔ j ∈ keys o ∧ j ≠ k := by
  induction o with
  | nil => simp [eraseK, keys]
  | cons p rest ih =>
    obtain ⟨k0, v0⟩ := p
    by_cases hk : k0 = k
    · subst hk
      simp only [eraseK, if_pos rfl, ih, keys, List.map_cons, List.mem_cons]
      tauto
    · have hjk : j = k0 → j ≠ k := fun h => h ▸ hk
      simp only [eraseK, if_neg hk, keys, List.map_cons, List.mem_cons]
      rw [show List.map Prod.fst (eraseK rest k) = keys (eraseK rest k) from rfl,
        ih]
      tauto

theorem mem_keys_setK (o : Obj) (k j : String) (v : JVal) :
    j ∈ keys (setK o k v) ↔ j ∈ keys o ∨ j = k := by
  induction o with
  | nil => simp [setK, keys, eq_comm]
  | cons p rest ih =>
    obtain ⟨k0, v0⟩ := p
    by_cases hk : k0 = k
    · subst hk
      simp only [setK, if_pos rfl, keys, List.map_cons, List.mem_cons,
        ite_true, eq_self_iff_true]
      tauto
    · simp only [setK, if_neg hk, keys, List.map_cons, List.mem_cons]
      rw [show List.map Prod.fst (setK rest k v) = keys (setK rest k v) from rfl,
        ih]
      tauto

theorem getK_merge_map (t s : Obj) (k : String) :
    getK (t.map (fun p => (p.1, (getK s p.1).getD p.2))) k =
      (getK t k).map (fun v => (getK s k).getD v) := by
  induction t with
  | nil => simp [getK]
  | cons p rest ih =>
    obtain ⟨k0, v0⟩ := p
    by_cases h : k = k0 <;> simp [getK, h, ih]

theorem getK_filter_keys (s : Obj) (t : List String) (k : String) :
    getK (s.filter (fun p => p.1 ∉ t)) k = if k ∈ t then none else getK s k := by
  induction s with
  | nil => simp [getK]
  | cons p rest ih =>
    obtain ⟨k0, v0⟩ := p
    rw [List.filter_cons]
    by_cases hmem : k0 ∈ t
    · rw [if_neg (by simpa using hmem), ih]
      by_cases h : k = k0
      · subst h
        simp [hmem]
      · by_cases hk : k ∈ t
        · simp [hk]
        · simp [hk, getK, h]
    · rw [if_pos (by simpa using hmem)]
      by_cases h : k = k0
      · subst h
        simp [getK, hmem]
      · simp only [getK, if_neg h]
        rw [ih]

theorem getK_merge (t s : Obj) (k : String) :
    getK (jsMergeScalarTarget t s) k =
      match getK s k with
      | some v => some v
      | none => getK t k := by
  unfold jsMergeScalarTarget
  rw [getK_append, getK_merge_map, getK_filter_keys]
  cases ht : getK t k with
  | some v =>
    have hmem : k ∈ keys t := by
      by_contra hc
      rw [(getK_eq_none_iff t k).mpr hc] at ht
      exact Option.noConfusion ht
    cases hs : getK s k <;> simp [hmem, hs]
  | none =>
    have hmem : k ∉ keys t := (getK_eq_none_iff t k).mp ht
    cases hs : getK s k <;> simp [hmem, hs]

theorem keys_append (a b : Obj) : keys (a ++ b) = keys a ++ keys b := by
  simp [keys]

theorem mem_keys_filter_keys (s : Obj) (t : List String) (j : String) :
    j ∈ keys (s.filter (fun p => p.1 ∉ t)) ↔ j ∈ keys s ∧ j ∉ t := by
  induction s with
  | nil => simp [keys]
  | cons p rest ih =>
    obtain ⟨k0, v0⟩ := p
    rw [List.filter_cons]
    by_cases hmem : k0 ∈ t
    · rw [if_neg (by simpa using hmem), ih]
      by_cases h : j = k0
      · subst h
        simp only [ih, keys, List.map_cons, List.mem_cons]
        tauto
      · simp [keys, h]
    · rw [if_pos (by simpa using hmem)]
      by_cases h : j = k0
      · subst h
        simp [keys, hmem]
      · simp only [keys, List.map_cons, List.mem_cons]
        rw [show List.map Prod.fst (List.filter (fun p => decide (p.1 ∉ t)) rest)
          = keys (List.filter (fun p => p.1 ∉ t) rest) from rfl, ih]
        simp [keys, h]

theorem mem_keys_merge (t s : Obj) (j : String) :
    j ∈ keys (jsMergeScalarTarget t s) ↔ j ∈ keys t ∨ j ∈ keys s := by
  unfold jsMergeScalarTarget
  rw [keys_append, List.mem_append]
  have h1 : keys (t.map (fun p => (p.1, (getK s p.1).getD p.2))) = keys t := by
    simp only [keys, List.map_map]
    congr 1
  rw [h1, mem_keys_filter_keys]
  by_cases hm : j ∈ keys t <;> simp [hm]

theorem retryLoop_spec (t : Nat → Nat) (d : Nat) :
    ∀ fuel idx, 0 < fuel →
      1 ≤ (retryLoop t d idx fuel).2.1 ∧
      (retryLoop t d idx fuel).2.1 ≤ fuel ∧
      (retryLoop t d idx fuel).1 = t (idx + ((retryLoop t d idx fuel).2.1 - 1)) ∧
      (retryLoop t d idx fuel).2.2 =
        List.replicate ((retryLoop t d idx fuel).2.1 - 1) d ∧
      (∀ j, j + 1 < (retryLoop t d idx fuel).2.1 →
        ¬(200 ≤ t (idx + j) ∧ t (idx + j) < 500)) ∧
      ((200 ≤ (retryLoop t d idx fuel).1 ∧ (retryLoop t d idx fuel).1 < 500) ∨
        (retryLoop t d idx fuel).2.1 = fuel) := by
  intro fuel
  induction fuel with
  | zero => intro idx h; exact absurd h (by omega)
  | succ n ih =>
    intro idx _
    by_cases hg : 200 ≤ t idx ∧ t idx < 500
    · simp only [retryLoop, if_pos hg]
      refine ⟨by omega, by omega, by simp, by simp, ?_, Or.inl hg⟩
      intro j hj
      omega
    · by_cases hn : 0 < n
      · have ihr := ih (idx + 1) hn
        simp only [retryLoop, if_neg hg, if_pos hn]
        obtain ⟨h1, h2, h3, h4, h5, h6⟩ := ihr
        set r := retryLoop t d (idx + 1) n with hr
        refine ⟨by omega, by omega, ?_, ?_, ?_, ?_⟩
        · have heq : idx + 1 + (r.2.1 - 1) = idx + (r.2.1 + 1 - 1) := by omega
          simpa [heq] using h3
        · have heq : r.2.1 + 1 - 1 = (r.2.1 - 1) + 1 := by omega
          rw [heq, List.replicate_succ]
          simpa using h4
        · intro j hj
          cases j with
          | zero => simpa using hg
          | succ j0 =>
            have hlt : j0 + 1 < r.2.1 := by simpa using (by omega : j0 + 1 < r.2.1)
            have := h5 j0 (by omega)
            have heq : idx + 1 + j0 = idx + (j0 + 1) := by omega
            rwa [heq] at this
        · rcases h6 with h6 | h6
          · exact Or.inl h6
          · exact Or.inr (by omega)
      · have hn0 : n = 0 := by omega
        subst hn0
        simp only [retryLoop, if_neg hg, if_neg (by omega : ¬0 < 0)]
        refine ⟨by omega, by omega, by simp, by simp, ?_, by simp⟩
        intro j hj
        omega

theorem jsOr_eq_statedMaxAttempts (mA : Option Nat) (h : mA ≠ some 0) :
    jsOr mA 5 = statedMaxAttempts mA := by
  cases mA with
  | none => rfl
  | some n =>
    cases n with
    | zero => exact absurd rfl h
    | succ m => rfl

theorem jsOr_pos (v : Option Nat) (d : Nat) (hd : 0 < d) : 0 < jsOr v d := by
  cases v with
  | none => simpa [jsOr] using hd
  | some n => cases n with
    | zero => simpa [jsOr] using hd
    | succ m => simp [jsOr]

/-- C1: For every call to the retrying request entry point (doRequestRetry)
in which every transport invocation returns a response: at most maxAttempts
(default 5 when absent; the hypothesis excludes the degenerate
`maxAttempts: 0`, settled separately) transport calls are made; the loop
stops at the first response whose status lies in [200,500) and that response
is returned (every non-final call saw a status outside [200,500), and the
returned status is that of the last call); a retry is preceded by a wait of
`retryDelay || 5000` ms, with exactly one delay per non-final attempt and
none after the final one; when attempts are exhausted the last response is
returned regardless of status.  In particular, with maxAttempts 1 against a
transport returning 500 then 200 the result is the 500 response after a
single call, and with maxAttempts 2 it is the 200 response. -/
theorem C1_doRequestRetry_loop (t : Nat → Nat) (mA rd : Option Nat)
    (h : mA ≠ some 0) :
    1 ≤ (doRequestRetryLoop t mA rd).2.1 ∧
    (doRequestRetryLoop t mA rd).2.1 ≤ statedMaxAttempts mA ∧
    (doRequestRetryLoop t mA rd).1 = t ((doRequestRetryLoop t mA rd).2.1 - 1) ∧
    (doRequestRetryLoop t mA rd).2.2 =
      List.replicate ((doRequestRetryLoop t mA rd).2.1 - 1) (jsOr rd 5000) ∧
    (∀ j, j + 1 < (doRequestRetryLoop t mA rd).2.1 →
      ¬(200 ≤ t j ∧ t j < 500)) ∧
    ((200 ≤ (doRequestRetryLoop t mA rd).1 ∧
        (doRequestRetryLoop t mA rd).1 < 500) ∨
      (doRequestRetryLoop t mA rd).2.1 = statedMaxAttempts mA) ∧
    doRequestRetryLoop (fun i => if i = 0 then 500 else 200) (some 1) rd =
      (500, 1, []) ∧
    (doRequestRetryLoop (fun i => if i = 0 then 500 else 200) (some 2) rd).1 =
      200 := by
  have hstat := jsOr_eq_statedMaxAttempts mA h
  have hpos : 0 < jsOr mA 5 := jsOr_pos mA 5 (by omega)
  have master := retryLoop_spec t (jsOr rd 5000) (jsOr mA 5) 0 hpos
  obtain ⟨h1, h2, h3, h4, h5, h6⟩ := master
  rw [← hstat]
  refine ⟨h1, h2, by simpa using h3, h4, ?_, h6, ?_, ?_⟩
  · intro j hj
    simpa using h5 j hj
  · show retryLoop _ _ 0 1 = (500, 1, [])
    norm_num [retryLoop]
  · show (retryLoop _ _ 0 2).1 = 200
    norm_num [retryLoop]

theorem C1_doRequestRetry_loop_witness :
    1 ≤ (doRequestRetryLoop (fun _ => 500) (some 3) none).2.1 ∧
    (doRequestRetryLoop (fun _ => 500) (some 3) none).2.1 ≤
      statedMaxAttempts (some 3) ∧
    (doRequestRetryLoop (fun _ => 500) (some 3) none).1 =
      (fun _ => 500) ((doRequestRetryLoop (fun _ => 500) (some 3) none).2.1 - 1) ∧
    (doRequestRetryLoop (fun _ => 500) (some 3) none).2.2 =
      List.replicate ((doRequestRetryLoop (fun _ => 500) (some 3) none).2.1 - 1)
        (jsOr none 5000) ∧
    (∀ j, j + 1 < (doRequestRetryLoop (fun _ => 500) (some 3) none).2.1 →
      ¬(200 ≤ (fun _ => 500) j ∧ (fun _ => 500) j < 500)) ∧
    ((200 ≤ (doRequestRetryLoop (fun _ => 500) (some 3) none).1 ∧
        (doRequestRetryLoop (fun _ => 500) (some 3) none).1 < 500) ∨
      (doRequestRetryLoop (fun _ => 500) (some 3) none).2.1 =
        statedMaxAttempts (some 3)) ∧
    doRequestRetryLoop (fun i => if i = 0 then 500 else 200) (some 1) none =
      (500, 1, []) ∧
    (doRequestRetryLoop (fun i => if i = 0 then 500 else 200) (some 2) none).1 =
      200 :=
  C1_doRequestRetry_loop (fun _ => 500) (some 3) none (by decide)

/-- C10: For the retrying request entry point, `maxAttempts: 0` is falsy in
`maxAttempts || 5` and is treated exactly as an absent option (default 5),
and likewise `retryDelay: 0` selects the default 5000 ms delay: the loop
behaves identically to the no-options call, makes at most 5 transport
calls, and against a transport that always returns 500 makes exactly 5
calls with four 5000 ms delays between them. -/
theorem C10_zero_options_treated_as_absent (t : Nat → Nat) :
    doRequestRetryLoop t (some 0) (some 0) = doRequestRetryLoop t none none ∧
    (doRequestRetryLoop t (some 0) (some 0)).2.1 ≤ 5 ∧
    doRequestRetryLoop (fun _ => 500) (some 0) (some 0) =
      (500, 5, [5000, 5000, 5000, 5000]) := by
  refine ⟨rfl, ?_, by rfl⟩
  have master := retryLoop_spec t 5000 5 0 (by omega)
  exact master.2.1

theorem eraseK_of_not_mem (o : Obj) (k : String) (h : k ∉ keys o) :
    eraseK o k = o := by
  induction o with
  | nil => rfl
  | cons p rest ih =>
    obtain ⟨k0, v0⟩ := p
    simp only [keys, List.map_cons, List.mem_cons] at h
    push_neg at h
    simp only [eraseK, if_neg (fun hc : k0 = k => h.1 hc.symm)]
    rw [ih h.2]

/-! ## Preservation lemmas for the pipeline steps -/

theorem getK_stepAgentRestore (origAgent : JVal) (A : Obj) (k : String)
    (h : k ≠ "agent") :
    getK (stepAgentRestore origAgent A) k = getK A k := by
  unfold stepAgentRestore
  split
  · exact getK_setK_ne A "agent" k origAgent h
  · rfl

theorem getK_stepUri (A : Obj) (k : String) (h1 : k ≠ "url") (h2 : k ≠ "uri") :
    getK (stepUri A) k = getK A k := by
  unfold stepUri
  split
  · rw [getK_eraseK_ne _ _ _ h2, getK_setK_ne _ _ _ _ h1]
  · rfl

theorem getK_stepBaseUrl (A : Obj) (k : String) (h1 : k ≠ "baseURL")
    (h2 : k ≠ "baseUrl") :
    getK (stepBaseUrl A) k = getK A k := by
  unfold stepBaseUrl
  split
  · rw [getK_eraseK_ne _ _ _ h2, getK_setK_ne _ _ _ _ h1]
  · rfl

theorem getK_stepHeaders (A : Obj) (k : String) (h : k ≠ "headers") :
    getK (stepHeaders A) k = getK A k := by
  unfold stepHeaders
  split
  · exact getK_setK_ne _ _ _ _ h
  · rfl

theorem getK_stepQs (A : Obj) (k : String) (h1 : k ≠ "params")
    (h2 : k ≠ "qs") :
    getK (stepQs A) k = getK A k := by
  unfold stepQs
  split
  · rw [getK_eraseK_ne _ _ _ h2, getK_setK_ne _ _ _ _ h1]
  · rfl

theorem getK_preAxios (origAgent : JVal) (B1 : Obj) (k : String)
    (h : k ∉ (["url", "uri", "baseURL", "baseUrl", "headers", "params", "qs",
      "agent"] : List String)) :
    getK (preAxios origAgent B1) k =
      getK (jsMergeScalarTarget requestDefaults B1) k := by
  simp only [List.mem_cons, List.not_mem_nil, or_false] at h
  push_neg at h
  obtain ⟨hurl, huri, hbURL, hbUrl, hhdr, hpar, hqs, hag⟩ := h
  unfold preAxios
  rw [getK_stepQs _ _ hpar hqs, getK_stepHeaders _ _ hhdr,
    getK_stepBaseUrl _ _ hbURL hbUrl, getK_stepUri _ _ hurl huri,
    getK_stepAgentRestore _ _ _ hag]

theorem getK_stepFlags (A : Obj) (k : String)
    (h : k ∉ (["validateStatus", "simple", "resolveWithFullResponse",
      "responseType", "encoding"] : List String)) :
    getK (stepFlags A) k = getK A k := by
  simp only [List.mem_cons, List.not_mem_nil, or_false] at h
  push_neg at h
  obtain ⟨hvs, hsimp, hfull, hrt, henc⟩ := h
  unfold stepFlags
  rw [getK_eraseK_ne _ _ _ henc]
  split
  · rw [getK_setK_ne _ _ _ _ hrt, getK_eraseK_ne _ _ _ hfull,
      getK_eraseK_ne _ _ _ hsimp]
    split
    · rw [getK_setK_ne _ _ _ _ hvs]
    · rfl
  · rw [getK_eraseK_ne _ _ _ hfull, getK_eraseK_ne _ _ _ hsimp]
    split
    · rw [getK_setK_ne _ _ _ _ hvs]
    · rfl

theorem getK_cleanupAgentKeys (A : Obj) (k : String)
    (h : k ∉ (["agent", "ca", "cert", "key"] : List String)) :
    getK (cleanupAgentKeys A) k = getK A k := by
  simp only [List.mem_cons, List.not_mem_nil, or_false] at h
  push_neg at h
  obtain ⟨hag, hca, hcert, hkey⟩ := h
  unfold cleanupAgentKeys
  rw [getK_eraseK_ne _ _ _ hkey, getK_eraseK_ne _ _ _ hcert,
    getK_eraseK_ne _ _ _ hca, getK_eraseK_ne _ _ _ hag]

theorem getK_stepAgent (A A4 : Obj) (k : String)
    (hok : stepAgent A = .ok A4)
    (h : k ∉ (["agent", "ca", "cert", "key", "httpsAgent",
      "httpAgent"] : List String)) :
    getK A4 k = getK A k := by
  have hclean : k ∉ (["agent", "ca", "cert", "key"] : List String) := by
    simp only [List.mem_cons, List.not_mem_nil, or_false] at h ⊢
    tauto
  have hhttps : k ≠ "httpsAgent" := by
    simp only [List.mem_cons, List.not_mem_nil, or_false] at h
    tauto
  have hhttp : k ≠ "httpAgent" := by
    simp only [List.mem_cons, List.not_mem_nil, or_false] at h
    tauto
  unfold stepAgent at hok
  split at hok
  · split at hok
    case h_1 u hu =>
      rw [Except.ok.injEq] at hok
      subst hok
      rw [getK_cleanupAgentKeys _ _ hclean]
      split
      · rw [getK_setK_ne _ _ _ _ hhttps]
      · rw [getK_setK_ne _ _ _ _ hhttp]
    case h_2 => exact absurd hok (by simp)
  · split at hok
    · rw [Except.ok.injEq] at hok
      subst hok
      rw [getK_cleanupAgentKeys _ _ hclean, getK_setK_ne _ _ _ _ hhttps]
    · rw [Except.ok.injEq] at hok
      subst hok
      rw [getK_cleanupAgentKeys _ _ hclean]

theorem getK_stepAws (A A5 : Obj) (k : String)
    (hok : stepAws A = .ok A5) (h : k ≠ "headers") :
    getK A5 k = getK A k := by
  unfold stepAws at hok
  split at hok
  · split at hok
    · exact absurd hok (by simp)
    · split at hok
      · exact absurd hok (by simp)
      · rw [Except.ok.injEq] at hok
        subst hok
        rw [getK_setK_ne _ _ _ _ h]
  · rw [Except.ok.injEq] at hok
    subst hok
    rfl

/-! ## Claims C2, C3, C7, C8 -/

theorem invalidKeysOf_eraseK_agent (B : Obj) :
    invalidKeysOf (eraseK B "agent") = invalidKeysOf B := by
  unfold invalidKeysOf
  induction B with
  | nil => rfl
  | cons p rest ih =>
    obtain ⟨k0, v0⟩ := p
    simp only [decide_not, keys] at ih
    by_cases hk : k0 = "agent"
    · subst hk
      rw [show eraseK (("agent", v0) :: rest) "agent" = eraseK rest "agent"
        from by simp [eraseK]]
      simp only [decide_not, keys, List.map_cons, List.filter_cons]
      rw [ih, if_neg (by decide)]
    · rw [show eraseK ((k0, v0) :: rest) "agent" = (k0, v0) :: eraseK rest "agent"
        from by simp [eraseK, hk]]
      simp only [decide_not, keys, List.map_cons, List.filter_cons]
      by_cases hmem : k0 ∈ allowedRequestOptions
      · rw [if_neg (by simpa using hmem), if_neg (by simpa using hmem)]
        exact ih
      · rw [if_pos (by simpa using hmem), if_pos (by simpa using hmem), ih]

/-- C2: For every option bag with one or more top-level keys outside the
allow-list, translation fails with an error whose message enumerates every
invalid key present (in property order, comma-separated), not just the
first. -/
theorem C2_invalid_options_enumerated (B : Obj) (h : invalidKeysOf B ≠ []) :
    (requestOpts_to_axiosOpts B).2 =
      .error ("Invalid request options: " ++
        String.intercalate "," (invalidKeysOf B)) := by
  have hne : ¬(invalidKeysOf (eraseK B "agent")).isEmpty := by
    rw [invalidKeysOf_eraseK_agent]
    cases hl : invalidKeysOf B with
    | nil => exact absurd hl h
    | cons a as => simp
  show (if ¬(invalidKeysOf (eraseK B "agent")).isEmpty then
      Except.error ("Invalid request options: " ++
        String.intercalate "," (invalidKeysOf (eraseK B "agent")))
    else translateSteps (getD B "agent") (eraseK B "agent")) = _
  rw [if_pos hne, invalidKeysOf_eraseK_agent]

theorem C2_invalid_options_enumerated_witness :
    (requestOpts_to_axiosOpts
      [("foo", .vNum 1), ("bar", .vNum 2), ("uri", .vStr "/x")]).2 =
      .error ("Invalid request options: " ++
        String.intercalate ","
          (invalidKeysOf [("foo", .vNum 1), ("bar", .vNum 2), ("uri", .vStr "/x")])) :=
  C2_invalid_options_enumerated _ (by decide)

/-- C3 counterexample: for a bag that contains an `agent` property (here
together with an invalid key, so that the allow-list check fires), the
caller-supplied object is mutated — its `agent` property is gone after the
call — even though translation failed, showing the mutation precedes the
allow-list check.  This refutes "never mutates the caller-supplied options
object" and "any allow-list check happens before any mutation". -/
theorem C3_mutation_counterexample :
    "agent" ∈ keys [("agent", JVal.vAgent []), ("bogus", JVal.vNum 1)] ∧
    "agent" ∉ keys (requestOpts_to_axiosOpts
      [("agent", JVal.vAgent []), ("bogus", JVal.vNum 1)]).1 ∧
    exceptOk (requestOpts_to_axiosOpts
      [("agent", JVal.vAgent []), ("bogus", JVal.vNum 1)]).2 = false := by
  refine ⟨by decide, by decide, rfl⟩

/-- C3 (amended): translation (and the retrying entry point's option
preparation) mutates the caller-supplied options object in exactly one way:
its `agent` binding is deleted in place (before the allow-list check) and
never restored onto it.  A bag without an `agent` property is structurally
unchanged by either entry point. -/
theorem C3_mutation_amended (B : Obj) :
    (requestOpts_to_axiosOpts B).1 = eraseK B "agent" ∧
    (doRequestRetryPrep B).1 = eraseK B "agent" ∧
    ("agent" ∉ keys B →
      (requestOpts_to_axiosOpts B).1 = B ∧ (doRequestRetryPrep B).1 = B) := by
  refine ⟨rfl, rfl, fun h => ?_⟩
  have he : eraseK B "agent" = B := eraseK_of_not_mem B "agent" h
  exact ⟨he, he⟩

theorem C3_mutation_amended_witness :
    (requestOpts_to_axiosOpts [("uri", JVal.vStr "/x")]).1 =
      eraseK [("uri", JVal.vStr "/x")] "agent" ∧
    (doRequestRetryPrep [("uri", JVal.vStr "/x")]).1 =
      eraseK [("uri", JVal.vStr "/x")] "agent" ∧
    ("agent" ∉ keys [("uri", JVal.vStr "/x")] →
      (requestOpts_to_axiosOpts [("uri", JVal.vStr "/x")]).1 =
        [("uri", JVal.vStr "/x")] ∧
      (doRequestRetryPrep [("uri", JVal.vStr "/x")]).1 =
        [("uri", JVal.vStr "/x")]) :=
  C3_mutation_amended [("uri", JVal.vStr "/x")]

/-- Value check for the redaction sentinel. -/
def isRedactedVal : JVal → Bool
  | .vStr s => s = "[REDACTED]"
  | _ => false

/-- Every property of the normalized response is either on the allow-list
or redacted. -/
def responseRedactionOk (r : Obj) : Bool :=
  r.all fun p => p.1 ∈ allowedResponseProperties || isRedactedVal p.2

theorem responseRedactionOk_map_redact (l : Obj) :
    responseRedactionOk (l.map redactProp) = true := by
  induction l with
  | nil => rfl
  | cons p rest ih =>
    unfold responseRedactionOk at ih ⊢
    rw [List.map_cons, List.all_cons, ih, Bool.and_true]
    unfold redactProp
    by_cases h : p.1 ∈ allowedResponseProperties
    · simp [h]
    · simp [h, isRedactedVal]

/-- C7: After response normalization, every property of the legacy response
other than `url`, `method`, `statusCode`, `statusMessage` and `body` holds
the redaction sentinel `[REDACTED]`; and the value handed back to the caller
is the full legacy response object when `resolveWithFullResponse` was
requested, otherwise just its `body`. -/
theorem C7_redaction_and_return_shape (opts resp : Obj) :
    responseRedactionOk (axiosResponse_to_requestResponse opts resp).1 = true ∧
    (axiosResponse_to_requestResponse opts resp).2 =
      (if truthy (getD opts "resolveWithFullResponse") then
        .vObj (axiosResponse_to_requestResponse opts resp).1
      else getD (axiosResponse_to_requestResponse opts resp).1 "body") := by
  refine ⟨?_, rfl⟩
  exact responseRedactionOk_map_redact _

/-- C8 (code bug): when the transport promise of the streaming entry point
rejects before producing a response — e.g. a connection failure — the
returned stream emits NO events at all (in particular no `error` event) and
the rejection is left unhandled, because the source attaches no rejection
handler to `axios(...).then(...)`; the failure is not delivered through the
stream's error channel as the specification requires. -/
theorem C8_stream_transport_failure_dropped :
    getStreamEvents [("url", JVal.vStr "https://h")]
      (.rejected (.vStr "Error: connect ECONNREFUSED")) [] none = ([], true) ∧
    (∀ opts e chunks berr,
      getStreamEvents opts (.rejected e) chunks berr = ([], true)) :=
  ⟨rfl, fun _ _ _ _ => rfl⟩

/-! ## Claim C9 -/

theorem getK_doRequestRetryPrep (B : Obj) (k : String) (h1 : k ≠ "agent")
    (h2 : k ≠ "retryDelay") (h3 : k ≠ "maxAttempts")
    (h4 : k ≠ "retryStrategy") :
    getK (doRequestRetryPrep B).2 k =
      match getK B k with
      | some v => some v
      | none => getK [("resolveWithFullResponse", JVal.vBool true),
          ("simple", JVal.vBool false)] k := by
  simp only [doRequestRetryPrep]
  split
  · rw [getK_setK_ne _ _ _ _ h1, getK_eraseK_ne _ _ _ h4,
      getK_eraseK_ne _ _ _ h3, getK_eraseK_ne _ _ _ h2, getK_merge,
      getK_eraseK_ne _ _ _ h1]
  · rw [getK_eraseK_ne _ _ _ h4, getK_eraseK_ne _ _ _ h3,
      getK_eraseK_ne _ _ _ h2, getK_merge, getK_eraseK_ne _ _ _ h1]

theorem retry_only_keys_not_mem_prep (B : Obj) (k : String)
    (hk : k = "retryDelay" ∨ k = "maxAttempts" ∨ k = "retryStrategy") :
    k ∉ keys (doRequestRetryPrep B).2 := by
  have hag : k ≠ "agent" := by rcases hk with rfl | rfl | rfl <;> decide
  simp only [doRequestRetryPrep]
  intro hmem
  split at hmem
  · rw [mem_keys_setK] at hmem
    rcases hmem with hmem | hmem
    · rw [mem_keys_eraseK, mem_keys_eraseK, mem_keys_eraseK] at hmem
      tauto
    · exact hag hmem
  · rw [mem_keys_eraseK, mem_keys_eraseK, mem_keys_eraseK] at hmem
    tauto

/-- C9 counterexample: a retry-options bag that itself sets `simple: true`
(resp. `resolveWithFullResponse: false`) keeps that value in the options
used for translation — deepmerge lets the caller's own properties override
the `{resolveWithFullResponse: true, simple: false}` target, so these are
defaults, not forced values. -/
theorem C9_forced_flags_counterexample :
    getK (doRequestRetryPrep [("simple", JVal.vBool true)]).2 "simple" =
      some (.vBool true) ∧
    getK (doRequestRetryPrep
        [("resolveWithFullResponse", JVal.vBool false)]).2
      "resolveWithFullResponse" = some (.vBool false) ∧
    JVal.vBool true ≠ JVal.vBool false := by
  refine ⟨rfl, rfl, by simp⟩

/-- C9 (amended): the retrying entry point's option preparation applies
`resolveWithFullResponse = true` and `simple = false` only as DEFAULTS —
they take effect exactly when the caller's bag does not set the key, and a
caller-supplied value wins — while the retry-only keys `retryDelay`,
`maxAttempts` and `retryStrategy` are always removed before translation. -/
theorem C9_retry_prep_amended (B : Obj) :
    ("simple" ∉ keys B →
      getK (doRequestRetryPrep B).2 "simple" = some (.vBool false)) ∧
    ("resolveWithFullResponse" ∉ keys B →
      getK (doRequestRetryPrep B).2 "resolveWithFullResponse" =
        some (.vBool true)) ∧
    (∀ v, getK B "simple" = some v →
      getK (doRequestRetryPrep B).2 "simple" = some v) ∧
    (∀ v, getK B "resolveWithFullResponse" = some v →
      getK (doRequestRetryPrep B).2 "resolveWithFullResponse" = some v) ∧
    "retryDelay" ∉ keys (doRequestRetryPrep B).2 ∧
    "maxAttempts" ∉ keys (doRequestRetryPrep B).2 ∧
    "retryStrategy" ∉ keys (doRequestRetryPrep B).2 := by
  refine ⟨?_, ?_, ?_, ?_,
    retry_only_keys_not_mem_prep B _ (by tauto),
    retry_only_keys_not_mem_prep B _ (by tauto),
    retry_only_keys_not_mem_prep B _ (by tauto)⟩
  · intro h
    rw [getK_doRequestRetryPrep B "simple" (by decide) (by decide) (by decide)
      (by decide), (getK_eq_none_iff B "simple").mpr h]
    rfl
  · intro h
    rw [getK_doRequestRetryPrep B "resolveWithFullResponse" (by decide)
      (by decide) (by decide) (by decide),
      (getK_eq_none_iff B "resolveWithFullResponse").mpr h]
    rfl
  · intro v h
    rw [getK_doRequestRetryPrep B "simple" (by decide) (by decide) (by decide)
      (by decide), h]
  · intro v h
    rw [getK_doRequestRetryPrep B "resolveWithFullResponse" (by decide)
      (by decide) (by decide) (by decide), h]

theorem C9_retry_prep_amended_witness :
    ("simple" ∉ keys [("uri", JVal.vStr "/x")] →
      getK (doRequestRetryPrep [("uri", JVal.vStr "/x")]).2 "simple" =
        some (.vBool false)) ∧
    ("resolveWithFullResponse" ∉ keys [("uri", JVal.vStr "/x")] →
      getK (doRequestRetryPrep [("uri", JVal.vStr "/x")]).2
        "resolveWithFullResponse" = some (.vBool true)) ∧
    (∀ v, getK [("uri", JVal.vStr "/x")] "simple" = some v →
      getK (doRequestRetryPrep [("uri", JVal.vStr "/x")]).2 "simple" =
        some v) ∧
    (∀ v, getK [("uri", JVal.vStr "/x")] "resolveWithFullResponse" = some v →
      getK (doRequestRetryPrep [("uri", JVal.vStr "/x")]).2
        "resolveWithFullResponse" = some v) ∧
    "retryDelay" ∉ keys (doRequestRetryPrep [("uri", JVal.vStr "/x")]).2 ∧
    "maxAttempts" ∉ keys (doRequestRetryPrep [("uri", JVal.vStr "/x")]).2 ∧
    "retryStrategy" ∉ keys (doRequestRetryPrep [("uri", JVal.vStr "/x")]).2 :=
  C9_retry_prep_amended [("uri", JVal.vStr "/x")]

/-! ## Success elimination and key-membership lemmas for the pipeline -/

theorem not_mem_setK (o : Obj) (k j : String) (v : JVal) (h1 : j ∉ keys o)
    (h2 : j ≠ k) : j ∉ keys (setK o k v) := fun hc => by
  rw [mem_keys_setK] at hc
  tauto

theorem not_mem_eraseK (o : Obj) (k j : String) (h : j ∉ keys o) :
    j ∉ keys (eraseK o k) := fun hc => by
  rw [mem_keys_eraseK] at hc
  tauto

theorem mem_setK_of_mem (o : Obj) (k j : String) (v : JVal)
    (h : j ∈ keys o) : j ∈ keys (setK o k v) :=
  (mem_keys_setK o k j v).mpr (Or.inl h)

theorem mem_eraseK_of_mem (o : Obj) (k j : String) (h : j ∈ keys o)
    (hne : j ≠ k) : j ∈ keys (eraseK o k) :=
  (mem_keys_eraseK o k j).mpr ⟨h, hne⟩

theorem translate_ok_elim (B : Obj)
    (h : exceptOk (requestOpts_to_axiosOpts B).2 = true) :
    ∃ A3 A4 A5,
      stepPayload (preAxios (getD B "agent") (eraseK B "agent")) = .ok A3 ∧
      stepAgent (stepFlags A3) = .ok A4 ∧
      stepAws A4 = .ok A5 ∧
      (requestOpts_to_axiosOpts B).2 = .ok (eraseK A5 "status") := by
  by_cases hinv : (invalidKeysOf (eraseK B "agent")).isEmpty = true
  · have hr : (requestOpts_to_axiosOpts B).2 =
        translateSteps (getD B "agent") (eraseK B "agent") := by
      show (if ¬(invalidKeysOf (eraseK B "agent")).isEmpty then _ else _) = _
      rw [if_neg (by simp [hinv])]
    rw [hr] at h
    cases hp : stepPayload (preAxios (getD B "agent") (eraseK B "agent")) with
    | error e =>
      exfalso
      unfold translateSteps at h
      simp only [hp, exceptOk] at h
      exact absurd h (by simp)
    | ok A3 =>
      cases hg : stepAgent (stepFlags A3) with
      | error e =>
        exfalso
        unfold translateSteps at h
        simp only [hp, hg, exceptOk] at h
        exact absurd h (by simp)
      | ok A4 =>
        cases hw : stepAws A4 with
        | error e =>
          exfalso
          unfold translateSteps at h
          simp only [hp, hg, hw, exceptOk] at h
          exact absurd h (by simp)
        | ok A5 =>
          refine ⟨A3, A4, A5, rfl, hg, hw, ?_⟩
          rw [hr]
          unfold translateSteps
          simp only [hp, hg, hw]
  · exfalso
    have hr : (requestOpts_to_axiosOpts B).2 =
        .error ("Invalid request options: " ++
          String.intercalate "," (invalidKeysOf (eraseK B "agent"))) := by
      show (if ¬(invalidKeysOf (eraseK B "agent")).isEmpty then _ else _) = _
      rw [if_pos (by simpa using hinv)]
    rw [hr] at h
    exact absurd h (by simp [exceptOk])

theorem mem_stepAgentRestore (o : JVal) (A : Obj) (k : String)
    (h : k ∈ keys A) : k ∈ keys (stepAgentRestore o A) := by
  unfold stepAgentRestore
  split
  · exact mem_setK_of_mem _ _ _ _ h
  · exact h

theorem mem_stepUri (A : Obj) (k : String) (hne : k ≠ "uri")
    (h : k ∈ keys A) : k ∈ keys (stepUri A) := by
  unfold stepUri
  split
  · exact mem_eraseK_of_mem _ _ _ (mem_setK_of_mem _ _ _ _ h) hne
  · exact h

theorem mem_stepBaseUrl (A : Obj) (k : String) (hne : k ≠ "baseUrl")
    (h : k ∈ keys A) : k ∈ keys (stepBaseUrl A) := by
  unfold stepBaseUrl
  split
  · exact mem_eraseK_of_mem _ _ _ (mem_setK_of_mem _ _ _ _ h) hne
  · exact h

theorem mem_stepHeaders (A : Obj) (k : String) (h : k ∈ keys A) :
    k ∈ keys (stepHeaders A) := by
  unfold stepHeaders
  split
  · exact mem_setK_of_mem _ _ _ _ h
  · exact h

theorem mem_stepQs (A : Obj) (k : String) (hne : k ≠ "qs")
    (h : k ∈ keys A) : k ∈ keys (stepQs A) := by
  unfold stepQs
  split
  · exact mem_eraseK_of_mem _ _ _ (mem_setK_of_mem _ _ _ _ h) hne
  · exact h

theorem mem_stepPayload (A A3 : Obj) (k : String)
    (hok : stepPayload A = .ok A3) (hb : k ≠ "body") (hf : k ≠ "form")
    (hj : k ≠ "json") (h : k ∈ keys A) : k ∈ keys A3 := by
  unfold stepPayload at hok
  split at hok
  case h_2 => exact absurd hok (by simp)
  case h_1 m hm =>
    split at hok
    · split at hok
      · rw [Except.ok.injEq] at hok
        subst hok
        split
        · split <;>
            exact mem_setK_of_mem _ _ _ _
              (mem_eraseK_of_mem _ _ _ (mem_setK_of_mem _ _ _ _ h) hb)
        · exact mem_eraseK_of_mem _ _ _ (mem_setK_of_mem _ _ _ _ h) hb
      · split at hok
        · rw [Except.ok.injEq] at hok
          subst hok
          split
          · exact mem_setK_of_mem _ _ _ _
              (mem_eraseK_of_mem _ _ _ (mem_setK_of_mem _ _ _ _ h) hf)
          · exact mem_eraseK_of_mem _ _ _ (mem_setK_of_mem _ _ _ _ h) hf
        · split at hok
          · rw [Except.ok.injEq] at hok
            subst hok
            split
            · exact mem_setK_of_mem _ _ _ _
                (mem_eraseK_of_mem _ _ _ (mem_setK_of_mem _ _ _ _ h) hj)
            · exact mem_eraseK_of_mem _ _ _ (mem_setK_of_mem _ _ _ _ h) hj
          · rw [Except.ok.injEq] at hok
            subst hok
            exact h
    · rw [Except.ok.injEq] at hok
      subst hok
      refine mem_eraseK_of_mem _ _ _ ?_ hj
      split
      · exact mem_setK_of_mem _ _ _ _ h
      · exact h

theorem mem_stepFlags (A : Obj) (k : String) (hs : k ≠ "simple")
    (hf : k ≠ "resolveWithFullResponse") (he : k ≠ "encoding")
    (h : k ∈ keys A) : k ∈ keys (stepFlags A) := by
  unfold stepFlags
  refine mem_eraseK_of_mem _ _ _ ?_ he
  have h1 : k ∈ keys (eraseK (eraseK
      (if !truthy (getD A "simple") then setK A "validateStatus" .vNull else A)
      "simple") "resolveWithFullResponse") := by
    refine mem_eraseK_of_mem _ _ _ (mem_eraseK_of_mem _ _ _ ?_ hs) hf
    split
    · exact mem_setK_of_mem _ _ _ _ h
    · exact h
  split
  · exact mem_setK_of_mem _ _ _ _ h1
  · exact h1

theorem stepFlags_erases (A : Obj) :
    "simple" ∉ keys (stepFlags A) ∧
    "resolveWithFullResponse" ∉ keys (stepFlags A) ∧
    "encoding" ∉ keys (stepFlags A) := by
  unfold stepFlags
  refine ⟨?_, ?_, ?_⟩
  · refine not_mem_eraseK _ _ _ ?_
    have h1 : "simple" ∉ keys (eraseK (eraseK
        (if !truthy (getD A "simple") then setK A "validateStatus" .vNull else A)
        "simple") "resolveWithFullResponse") :=
      not_mem_eraseK _ _ _ (fun hc => ((mem_keys_eraseK _ _ _).mp hc).2 rfl)
    split
    · exact not_mem_setK _ _ _ _ h1 (by decide)
    · exact h1
  · refine not_mem_eraseK _ _ _ ?_
    have h1 : "resolveWithFullResponse" ∉ keys (eraseK (eraseK
        (if !truthy (getD A "simple") then setK A "validateStatus" .vNull else A)
        "simple") "resolveWithFullResponse") :=
      fun hc => ((mem_keys_eraseK _ _ _).mp hc).2 rfl
    split
    · exact not_mem_setK _ _ _ _ h1 (by decide)
    · exact h1
  · exact fun hc => ((mem_keys_eraseK _ _ _).mp hc).2 rfl

theorem cleanupAgentKeys_erases (A : Obj) :
    "agent" ∉ keys (cleanupAgentKeys A) ∧ "ca" ∉ keys (cleanupAgentKeys A) ∧
    "cert" ∉ keys (cleanupAgentKeys A) ∧ "key" ∉ keys (cleanupAgentKeys A) := by
  unfold cleanupAgentKeys
  refine ⟨?_, ?_, ?_, ?_⟩
  · exact not_mem_eraseK _ _ _ (not_mem_eraseK _ _ _ (not_mem_eraseK _ _ _
      (fun hc => ((mem_keys_eraseK _ _ _).mp hc).2 rfl)))
  · exact not_mem_eraseK _ _ _ (not_mem_eraseK _ _ _
      (fun hc => ((mem_keys_eraseK _ _ _).mp hc).2 rfl))
  · exact not_mem_eraseK _ _ _ (fun hc => ((mem_keys_eraseK _ _ _).mp hc).2 rfl)
  · exact fun hc => ((mem_keys_eraseK _ _ _).mp hc).2 rfl

theorem mem_cleanupAgentKeys (A : Obj) (k : String) (h1 : k ≠ "agent")
    (h2 : k ≠ "ca") (h3 : k ≠ "cert") (h4 : k ≠ "key") (h : k ∈ keys A) :
    k ∈ keys (cleanupAgentKeys A) :=
  mem_eraseK_of_mem _ _ _ (mem_eraseK_of_mem _ _ _
    (mem_eraseK_of_mem _ _ _ (mem_eraseK_of_mem _ _ _ h h1) h2) h3) h4

theorem not_mem_cleanupAgentKeys (A : Obj) (k : String) (h : k ∉ keys A) :
    k ∉ keys (cleanupAgentKeys A) :=
  not_mem_eraseK _ _ _ (not_mem_eraseK _ _ _ (not_mem_eraseK _ _ _
    (not_mem_eraseK _ _ _ h)))

theorem mem_stepAgent (A A4 : Obj) (k : String)
    (hok : stepAgent A = .ok A4) (h1 : k ≠ "agent") (h2 : k ≠ "ca")
    (h3 : k ≠ "cert") (h4 : k ≠ "key") (h : k ∈ keys A) : k ∈ keys A4 := by
  unfold stepAgent at hok
  split at hok
  · split at hok
    · rw [Except.ok.injEq] at hok
      subst hok
      exact mem_cleanupAgentKeys _ _ h1 h2 h3 h4 (mem_setK_of_mem _ _ _ _ h)
    · exact absurd hok (by simp)
  · split at hok
    · rw [Except.ok.injEq] at hok
      subst hok
      exact mem_cleanupAgentKeys _ _ h1 h2 h3 h4 (mem_setK_of_mem _ _ _ _ h)
    · rw [Except.ok.injEq] at hok
      subst hok
      exact mem_cleanupAgentKeys _ _ h1 h2 h3 h4 h

theorem not_mem_stepAgent (A A4 : Obj) (k : String)
    (hok : stepAgent A = .ok A4) (h1 : k ≠ "httpsAgent") (h2 : k ≠ "httpAgent")
    (h : k ∉ keys A) : k ∉ keys A4 := by
  unfold stepAgent at hok
  split at hok
  · split at hok
    · rw [Except.ok.injEq] at hok
      subst hok
      refine not_mem_cleanupAgentKeys _ _ ?_
      split
      · exact not_mem_setK _ _ _ _ h h1
      · exact not_mem_setK _ _ _ _ h h2
    · exact absurd hok (by simp)
  · split at hok
    · rw [Except.ok.injEq] at hok
      subst hok
      exact not_mem_cleanupAgentKeys _ _ (not_mem_setK _ _ _ _ h h1)
    · rw [Except.ok.injEq] at hok
      subst hok
      exact not_mem_cleanupAgentKeys _ _ h

theorem stepAgent_ok_erases (A A4 : Obj) (hok : stepAgent A = .ok A4) :
    "agent" ∉ keys A4 ∧ "ca" ∉ keys A4 ∧ "cert" ∉ keys A4 ∧
    "key" ∉ keys A4 := by
  unfold stepAgent at hok
  split at hok
  · split at hok
    · rw [Except.ok.injEq] at hok
      subst hok
      exact cleanupAgentKeys_erases _
    · exact absurd hok (by simp)
  · split at hok
    · rw [Except.ok.injEq] at hok
      subst hok
      exact cleanupAgentKeys_erases _
    · rw [Except.ok.injEq] at hok
      subst hok
      exact cleanupAgentKeys_erases _

theorem mem_stepAws (A A5 : Obj) (k : String) (hok : stepAws A = .ok A5)
    (h : k ∈ keys A) : k ∈ keys A5 := by
  unfold stepAws at hok
  split at hok
  · split at hok
    · exact absurd hok (by simp)
    · split at hok
      · exact absurd hok (by simp)
      · rw [Except.ok.injEq] at hok
        subst hok
        exact mem_setK_of_mem _ _ _ _ h
  · rw [Except.ok.injEq] at hok
    subst hok
    exact h

theorem not_mem_stepAws (A A5 : Obj) (k : String) (hok : stepAws A = .ok A5)
    (hne : k ≠ "headers") (h : k ∉ keys A) : k ∉ keys A5 := by
  unfold stepAws at hok
  split at hok
  · split at hok
    · exact absurd hok (by simp)
    · split at hok
      · exact absurd hok (by simp)
      · rw [Except.ok.injEq] at hok
        subst hok
        exact not_mem_setK _ _ _ _ h hne
  · rw [Except.ok.injEq] at hok
    subst hok
    exact h

/-! ## Claim C6 -/

/-- C6 counterexample: a bag carrying an `aws` mapping that does not enter
the signing block (no key/secret) translates successfully, and the returned
configuration still contains the translation-only key `aws` — the source
never deletes it.  This refutes "the returned configuration contains none of
... `aws` ...". -/
theorem C6_aws_retained_counterexample :
    exceptOk (requestOpts_to_axiosOpts
      [("url", .vStr "https://h/p"), ("aws", .vObj [])]).2 = true ∧
    "aws" ∈ okKeys (requestOpts_to_axiosOpts
      [("url", .vStr "https://h/p"), ("aws", .vObj [])]).2 := by
  exact ⟨rfl, by decide⟩

/-- C6 (amended): for every option bag for which translation succeeds, the
returned configuration contains none of the translation-only keys `simple`,
`resolveWithFullResponse`, `encoding`, `agent`, `ca`, `cert`, `key`,
`status` — but `aws` is NOT stripped: whenever the input bag has an `aws`
key, the returned configuration still has it. -/
theorem C6_translation_only_keys_amended (B : Obj)
    (hok : exceptOk (requestOpts_to_axiosOpts B).2 = true) :
    "simple" ∉ okKeys (requestOpts_to_axiosOpts B).2 ∧
    "resolveWithFullResponse" ∉ okKeys (requestOpts_to_axiosOpts B).2 ∧
    "encoding" ∉ okKeys (requestOpts_to_axiosOpts B).2 ∧
    "agent" ∉ okKeys (requestOpts_to_axiosOpts B).2 ∧
    "ca" ∉ okKeys (requestOpts_to_axiosOpts B).2 ∧
    "cert" ∉ okKeys (requestOpts_to_axiosOpts B).2 ∧
    "key" ∉ okKeys (requestOpts_to_axiosOpts B).2 ∧
    "status" ∉ okKeys (requestOpts_to_axiosOpts B).2 ∧
    ("aws" ∈ keys B → "aws" ∈ okKeys (requestOpts_to_axiosOpts B).2) := by
  obtain ⟨A3, A4, A5, hp, hg, hw, hres⟩ := translate_ok_elim B hok
  rw [hres]
  show "simple" ∉ keys (eraseK A5 "status") ∧ _
  have hflags := stepFlags_erases A3
  have hagent := stepAgent_ok_erases _ _ hg
  refine ⟨?_, ?_, ?_, ?_, ?_, ?_, ?_, ?_, ?_⟩
  · exact not_mem_eraseK _ _ _ (not_mem_stepAws _ _ _ hw (by decide)
      (not_mem_stepAgent _ _ _ hg (by decide) (by decide) hflags.1))
  · exact not_mem_eraseK _ _ _ (not_mem_stepAws _ _ _ hw (by decide)
      (not_mem_stepAgent _ _ _ hg (by decide) (by decide) hflags.2.1))
  · exact not_mem_eraseK _ _ _ (not_mem_stepAws _ _ _ hw (by decide)
      (not_mem_stepAgent _ _ _ hg (by decide) (by decide) hflags.2.2))
  · exact not_mem_eraseK _ _ _ (not_mem_stepAws _ _ _ hw (by decide) hagent.1)
  · exact not_mem_eraseK _ _ _ (not_mem_stepAws _ _ _ hw (by decide) hagent.2.1)
  · exact not_mem_eraseK _ _ _
      (not_mem_stepAws _ _ _ hw (by decide) hagent.2.2.1)
  · exact not_mem_eraseK _ _ _
      (not_mem_stepAws _ _ _ hw (by decide) hagent.2.2.2)
  · exact fun hc => ((mem_keys_eraseK _ _ _).mp hc).2 rfl
  · intro hmem
    refine mem_eraseK_of_mem _ _ _ (mem_stepAws _ _ _ hw ?_) (by decide)
    refine mem_stepAgent _ _ _ hg (by decide) (by decide) (by decide)
      (by decide) ?_
    refine mem_stepFlags _ _ (by decide) (by decide) (by decide) ?_
    refine mem_stepPayload _ _ _ hp (by decide) (by decide) (by decide) ?_
    unfold preAxios
    refine mem_stepQs _ _ (by decide) ?_
    refine mem_stepHeaders _ _ ?_
    refine mem_stepBaseUrl _ _ (by decide) ?_
    refine mem_stepUri _ _ (by decide) ?_
    refine mem_stepAgentRestore _ _ _ ?_
    rw [mem_keys_merge]
    exact Or.inr (mem_eraseK_of_mem _ _ _ hmem (by decide))

theorem C6_translation_only_keys_amended_witness :
    "simple" ∉ okKeys (requestOpts_to_axiosOpts
      [("url", .vStr "https://h/p"), ("simple", .vBool false),
       ("resolveWithFullResponse", .vBool true), ("encoding", .vNull),
       ("ca", .vStr "CA"), ("status", .vStr "x"), ("aws", .vObj [])]).2 ∧
    "resolveWithFullResponse" ∉ okKeys (requestOpts_to_axiosOpts
      [("url", .vStr "https://h/p"), ("simple", .vBool false),
       ("resolveWithFullResponse", .vBool true), ("encoding", .vNull),
       ("ca", .vStr "CA"), ("status", .vStr "x"), ("aws", .vObj [])]).2 ∧
    "encoding" ∉ okKeys (requestOpts_to_axiosOpts
      [("url", .vStr "https://h/p"), ("simple", .vBool false),
       ("resolveWithFullResponse", .vBool true), ("encoding", .vNull),
       ("ca", .vStr "CA"), ("status", .vStr "x"), ("aws", .vObj [])]).2 ∧
    "agent" ∉ okKeys (requestOpts_to_axiosOpts
      [("url", .vStr "https://h/p"), ("simple", .vBool false),
       ("resolveWithFullResponse", .vBool true), ("encoding", .vNull),
       ("ca", .vStr "CA"), ("status", .vStr "x"), ("aws", .vObj [])]).2 ∧
    "ca" ∉ okKeys (requestOpts_to_axiosOpts
      [("url", .vStr "https://h/p"), ("simple", .vBool false),
       ("resolveWithFullResponse", .vBool true), ("encoding", .vNull),
       ("ca", .vStr "CA"), ("status", .vStr "x"), ("aws", .vObj [])]).2 ∧
    "cert" ∉ okKeys (requestOpts_to_axiosOpts
      [("url", .vStr "https://h/p"), ("simple", .vBool false),
       ("resolveWithFullResponse", .vBool true), ("encoding", .vNull),
       ("ca", .vStr "CA"), ("status", .vStr "x"), ("aws", .vObj [])]).2 ∧
    "key" ∉ okKeys (requestOpts_to_axiosOpts
      [("url", .vStr "https://h/p"), ("simple", .vBool false),
       ("resolveWithFullResponse", .vBool true), ("encoding", .vNull),
       ("ca", .vStr "CA"), ("status", .vStr "x"), ("aws", .vObj [])]).2 ∧
    "status" ∉ okKeys (requestOpts_to_axiosOpts
      [("url", .vStr "https://h/p"), ("simple", .vBool false),
       ("resolveWithFullResponse", .vBool true), ("encoding", .vNull),
       ("ca", .vStr "CA"), ("status", .vStr "x"), ("aws", .vObj [])]).2 ∧
    ("aws" ∈ keys
      [("url", .vStr "https://h/p"), ("simple", .vBool false),
       ("resolveWithFullResponse", .vBool true), ("encoding", .vNull),
       ("ca", .vStr "CA"), ("status", .vStr "x"), ("aws", .vObj [])] →
      "aws" ∈ okKeys (requestOpts_to_axiosOpts
        [("url", .vStr "https://h/p"), ("simple", .vBool false),
         ("resolveWithFullResponse", .vBool true), ("encoding", .vNull),
         ("ca", .vStr "CA"), ("status", .vStr "x"), ("aws", .vObj [])]).2) :=
  C6_translation_only_keys_amended _ (by rfl)

/-! ## Value chains through the pipeline (for C4 and C5) -/

theorem getK_A2_eq (B : Obj) (k : String)
    (hk : k ∉ (["url", "uri", "baseURL", "baseUrl", "headers", "params",
      "qs", "agent"] : List String)) :
    getK (preAxios (getD B "agent") (eraseK B "agent")) k =
      match getK B k with
      | some v => some v
      | none => getK requestDefaults k := by
  have hag : k ≠ "agent" := by
    intro hc
    exact hk (by simp [hc])
  rw [getK_preAxios _ _ _ hk, getK_merge, getK_eraseK_ne _ _ _ hag]

/-- C4 counterexample: a POST bag whose `json` is the plain boolean flag
`true`, with no `body` and no `form`, translates successfully and the
outgoing payload `data` IS the boolean flag — `else if (axiosOptions.json)`
tests truthiness, not "is not a plain boolean".  This refutes "a `json`
value that is a plain boolean flag is never used as the payload". -/
theorem C4_json_flag_counterexample :
    exceptOk (requestOpts_to_axiosOpts
      [("method", .vStr "post"), ("url", .vStr "https://h/p"),
       ("json", .vBool true)]).2 = true ∧
    okGet (requestOpts_to_axiosOpts
      [("method", .vStr "post"), ("url", .vStr "https://h/p"),
       ("json", .vBool true)]).2 "data" = some (.vBool true) :=
  ⟨rfl, rfl⟩

/-- C4 (amended): for every option bag whose method string uppercases to
POST, PUT or PATCH and for which translation succeeds, exactly one source
drives the outgoing payload `data` with precedence decided by JS truthiness,
body > form > json: a truthy `body` is the payload; else a truthy `form`;
else a truthy `json` — including the boolean flag `true`.  (A falsy `json`,
such as the flag `false`, is never used as the payload.) -/
theorem C4_payload_precedence_amended (B : Obj) (s : String)
    (hok : exceptOk (requestOpts_to_axiosOpts B).2 = true)
    (hm : getK B "method" = some (.vStr s))
    (hup : jsUpper s = "POST" ∨ jsUpper s = "PUT" ∨ jsUpper s = "PATCH") :
    (truthy (getD B "body") = true →
      okGet (requestOpts_to_axiosOpts B).2 "data" = some (getD B "body")) ∧
    (truthy (getD B "body") = false → truthy (getD B "form") = true →
      okGet (requestOpts_to_axiosOpts B).2 "data" = some (getD B "form")) ∧
    (truthy (getD B "body") = false → truthy (getD B "form") = false →
      truthy (getD B "json") = true →
      okGet (requestOpts_to_axiosOpts B).2 "data" = some (getD B "json")) := by
  obtain ⟨A3, A4, A5, hp, hg, hw, hres⟩ := translate_ok_elim B hok
  have hout : okGet (requestOpts_to_axiosOpts B).2 "data" = getK A3 "data" := by
    rw [hres]
    show getK (eraseK A5 "status") "data" = getK A3 "data"
    rw [getK_eraseK_ne _ _ _ (by decide), getK_stepAws _ _ _ hw (by decide),
      getK_stepAgent _ _ _ hg (by decide), getK_stepFlags _ _ (by decide)]
  set A2 := preAxios (getD B "agent") (eraseK B "agent") with hA2def
  have hgm : getD A2 "method" = .vStr s := by
    unfold getD
    rw [hA2def, getK_A2_eq B "method" (by decide), hm]
    rfl
  have hgb : getD A2 "body" = getD B "body" := by
    unfold getD
    rw [hA2def, getK_A2_eq B "body" (by decide)]
    cases getK B "body" <;> rfl
  have hgf : getD A2 "form" = getD B "form" := by
    unfold getD
    rw [hA2def, getK_A2_eq B "form" (by decide)]
    cases getK B "form" <;> rfl
  have hgj : getD A2 "json" = getD B "json" := by
    unfold getD
    rw [hA2def, getK_A2_eq B "json" (by decide)]
    cases getK B "json" <;> rfl
  unfold stepPayload at hp
  simp only [hgm] at hp
  rw [if_pos hup] at hp
  refine ⟨?_, ?_, ?_⟩
  · intro htb
    have hp2 := hp
    rw [if_pos (by rw [hgb]; exact htb)] at hp2
    rw [Except.ok.injEq] at hp2
    rw [hout, ← hp2]
    split
    · split
      · rw [getK_setK_ne _ _ _ _ (by decide), getK_eraseK_ne _ _ _ (by decide),
          getK_setK_self, hgb]
      · rw [getK_setK_ne _ _ _ _ (by decide), getK_eraseK_ne _ _ _ (by decide),
          getK_setK_self, hgb]
    · rw [getK_eraseK_ne _ _ _ (by decide), getK_setK_self, hgb]
  · intro htb htf
    have hp2 := hp
    rw [if_neg (by rw [hgb, htb]; simp),
      if_pos (by rw [hgf]; exact htf)] at hp2
    rw [Except.ok.injEq] at hp2
    rw [hout, ← hp2]
    split
    · rw [getK_setK_ne _ _ _ _ (by decide), getK_eraseK_ne _ _ _ (by decide),
        getK_setK_self, hgf]
    · rw [getK_eraseK_ne _ _ _ (by decide), getK_setK_self, hgf]
  · intro htb htf htj
    have hp2 := hp
    rw [if_neg (by rw [hgb, htb]; simp), if_neg (by rw [hgf, htf]; simp),
      if_pos (by rw [hgj]; exact htj)] at hp2
    rw [Except.ok.injEq] at hp2
    rw [hout, ← hp2]
    split
    · rw [getK_setK_ne _ _ _ _ (by decide), getK_eraseK_ne _ _ _ (by decide),
        getK_setK_self, hgj]
    · rw [getK_eraseK_ne _ _ _ (by decide), getK_setK_self, hgj]

theorem C4_payload_precedence_amended_witness :
    (truthy (getD [("method", JVal.vStr "post"), ("url", JVal.vStr "https://h/p"),
        ("body", .vObj [("a", .vNum 1)]), ("json", .vBool true)] "body") = true →
      okGet (requestOpts_to_axiosOpts
        [("method", JVal.vStr "post"), ("url", JVal.vStr "https://h/p"),
         ("body", .vObj [("a", .vNum 1)]), ("json", .vBool true)]).2 "data" =
        some (getD [("method", JVal.vStr "post"), ("url", JVal.vStr "https://h/p"),
          ("body", .vObj [("a", .vNum 1)]), ("json", .vBool true)] "body")) ∧
    (truthy (getD [("method", JVal.vStr "post"), ("url", JVal.vStr "https://h/p"),
        ("body", .vObj [("a", .vNum 1)]), ("json", .vBool true)] "body") = false →
      truthy (getD [("method", JVal.vStr "post"), ("url", JVal.vStr "https://h/p"),
        ("body", .vObj [("a", .vNum 1)]), ("json", .vBool true)] "form") = true →
      okGet (requestOpts_to_axiosOpts
        [("method", JVal.vStr "post"), ("url", JVal.vStr "https://h/p"),
         ("body", .vObj [("a", .vNum 1)]), ("json", .vBool true)]).2 "data" =
        some (getD [("method", JVal.vStr "post"), ("url", JVal.vStr "https://h/p"),
          ("body", .vObj [("a", .vNum 1)]), ("json", .vBool true)] "form")) ∧
    (truthy (getD [("method", JVal.vStr "post"), ("url", JVal.vStr "https://h/p"),
        ("body", .vObj [("a", .vNum 1)]), ("json", .vBool true)] "body") = false →
      truthy (getD [("method", JVal.vStr "post"), ("url", JVal.vStr "https://h/p"),
        ("body", .vObj [("a", .vNum 1)]), ("json", .vBool true)] "form") = false →
      truthy (getD [("method", JVal.vStr "post"), ("url", JVal.vStr "https://h/p"),
        ("body", .vObj [("a", .vNum 1)]), ("json", .vBool true)] "json") = true →
      okGet (requestOpts_to_axiosOpts
        [("method", JVal.vStr "post"), ("url", JVal.vStr "https://h/p"),
         ("body", .vObj [("a", .vNum 1)]), ("json", .vBool true)]).2 "data" =
        some (getD [("method", JVal.vStr "post"), ("url", JVal.vStr "https://h/p"),
          ("body", .vObj [("a", .vNum 1)]), ("json", .vBool true)] "json")) :=
  C4_payload_precedence_amended
    [("method", JVal.vStr "post"), ("url", JVal.vStr "https://h/p"),
     ("body", .vObj [("a", .vNum 1)]), ("json", .vBool true)] "post"
    (by rfl) (by rfl) (Or.inl (by rfl))

end RequestUtil
